import Mathlib

/-
Verification of the online-judge repository's sandboxed execution engine.
The Go sources are shallowly embedded: strings are lists of characters
(Go strings are sequences of runes), external effects (isolate, cp, the
compilers, the Docker daemon) are driven by an explicit environment
oracle, and each judging function returns its result together with the
list of backend events it emitted, so that lifecycle claims (allocation,
release) are statements about that event trace.  Error messages elide
the Go `%v` payload of the wrapped error except where a claim inspects
it (the Docker wait error).
-/

/-- Character sequences; Go strings are embedded as lists of runes. -/
abbrev Chars := List Char

/-- Go `unicode.IsSpace`: the ASCII spaces, the two Latin-1 spaces, and the
Unicode White_Space code points. -/
def goIsSpace (c : Char) : Bool :=
  c.toNat = 9 || c.toNat = 10 || c.toNat = 11 || c.toNat = 12 ||
  c.toNat = 13 || c.toNat = 32 || c.toNat = 0x85 || c.toNat = 0xA0 ||
  c.toNat = 0x1680 || (0x2000 ≤ c.toNat && c.toNat ≤ 0x200A) ||
  c.toNat = 0x2028 || c.toNat = 0x2029 || c.toNat = 0x202F ||
  c.toNat = 0x205F || c.toNat = 0x3000

/-- Drop trailing characters satisfying `goIsSpace`. -/
def dropTrailing (l : Chars) : Chars :=
  (l.reverse.dropWhile goIsSpace).reverse

/-- Go `strings.TrimSpace`: drop leading and trailing white space. -/
def goTrimSpace (l : Chars) : Chars :=
  dropTrailing (l.dropWhile goIsSpace)

/-- The character filter used by `sanitizeOutput` in both judge variants:
keep printable ASCII (32..126) plus newline and carriage return. -/
def keepPrintable (c : Char) : Bool :=
  (32 ≤ c.toNat && c.toNat ≤ 126) || c.toNat = 10 || c.toNat = 13

/-- `sanitizeOutput` from src/cmd/judge/main.go (identical in
src/unnamed/part_003): strip characters outside printable ASCII plus
newline and carriage return, then trim surrounding white space. -/
def sanitizeOutput (output : Chars) : Chars :=
  goTrimSpace (output.filter keepPrintable)

/-- Go `strings.SplitN(s, sep, 2)` for a one-character separator, returned
as `none` when the separator does not occur (Go then returns a
one-element slice, which the metadata parsers skip). -/
def splitOnce (c : Char) : Chars → Option (Chars × Chars)
  | [] => none
  | x :: xs =>
    if x = c then some ([], xs)
    else
      match splitOnce c xs with
      | none => none
      | some p => some (x :: p.1, p.2)

/-- Digit run to a number; `none` when a non-digit occurs. -/
def digitsToNat : Chars → Option Nat
  | [] => some 0
  | c :: t =>
    if c.isDigit then
      match digitsToNat t with
      | none => none
      | some n => some ((c.toNat - 48) * 10 ^ t.length + n)
      else none

/-- Go `strconv.Atoi` as used in `runCodeInIsolate` with its error
discarded: an optional sign followed by digits parses to its value,
anything else yields 0. -/
def atoiOrZero (s : Chars) : Int :=
  match s with
  | [] => 0
  | c :: t =>
    if c = '+' then
      (if t = [] then 0 else match digitsToNat t with
        | none => 0
        | some n => (n : Int))
    else if c = '-' then
      (if t = [] then 0 else match digitsToNat t with
        | none => 0
        | some n => -(n : Int))
    else
      match digitsToNat (c :: t) with
      | none => 0
      | some n => (n : Int)

/-- Go `filepath.Base` for the slash-separated file names the judge
builds (no trailing-slash inputs occur). -/
def baseName (p : Chars) : Chars :=
  (p.reverse.takeWhile (fun c => !(c = '/'))).reverse

/-- Drop one trailing carriage return, as `bufio.ScanLines` does. -/
def dropCR (l : Chars) : Chars :=
  if l.getLast? = some '\r' then l.dropLast else l

/-- Lines as produced by a `bufio.Scanner` with the default split
function: split on newline, no empty final token for newline-terminated
input, one trailing carriage return removed per line. -/
def goScanLines (content : Chars) : List Chars :=
  if content = [] then []
  else
    let parts := content.splitOn '\n'
    let parts := if content.getLast? = some '\n' then parts.dropLast else parts
    parts.map dropCR

/-- The first metadata pass inside `runCodeInIsolate`
(src/cmd/judge/main.go): split the file on newlines, skip lines without
a colon, record `max-rss` through `strconv.Atoi` with the error
discarded and `time` verbatim; later lines overwrite earlier ones. -/
def parseMetaPass (content : Chars) : Int × Chars :=
  (content.splitOn '\n').foldl
    (fun acc line =>
      match splitOnce ':' line with
      | none => acc
      | some kv =>
        if kv.1 = "max-rss".toList then (atoiOrZero kv.2, acc.2)
        else if kv.1 = "time".toList then (acc.1, kv.2)
        else acc)
    (0, [])

/-- `getMetadata` from src/cmd/judge/main.go: scan the metadata file line
by line, keep `key:value` lines with key and value trimmed; embedded as
the association list in insertion order. -/
def getMetadata (content : Chars) : List (Chars × Chars) :=
  (goScanLines content).foldl
    (fun acc line =>
      match splitOnce ':' line with
      | none => acc
      | some kv => acc ++ [(goTrimSpace kv.1, goTrimSpace kv.2)])
    []

/-- Go map lookup with the string zero value for missing keys; later
insertions overwrite earlier ones. -/
def metaLookup (m : List (Chars × Chars)) (k : Chars) : Chars :=
  m.foldl (fun acc kv => if kv.1 = k then kv.2 else acc) []

/-- `ExecutionResult` from src/cmd/judge/main.go (isolate variant). -/
structure ExecutionResult where
  Message : Chars
  Status : Chars
  Stdout : Chars
  Stderr : Chars
  CompileOutput : Chars
  Time : Chars
  Memory : Int
  deriving DecidableEq

deriving instance DecidableEq for Except

/-- The zero-initialized result constructed at the top of
`runCodeInIsolate`. -/
def emptyResult : ExecutionResult :=
  { Message := [], Status := [], Stdout := [], Stderr := [],
    CompileOutput := [], Time := [], Memory := 0 }

/-- The fixed isolate box identifier `boxId := "0"` pinned in
`runCodeInIsolate`. -/
def boxId : Chars := "0".toList

/-- Environment oracle for one `runCodeInIsolate` call: outcomes of the
external isolate/cp/compiler invocations and the metadata file content
(`none` models a failing `os.ReadFile`/`os.Open`). -/
structure IsolateEnv where
  initOk : Bool
  copyOk : Bool
  compileOk : Bool
  compileStderr : Chars
  runOk : Bool
  runStdout : Chars
  runStderr : Chars
  metaContent : Option Chars
  deriving DecidableEq

/-- Backend events emitted by the process-sandbox judge. -/
inductive IsoEvent where
  | initBox (id : Chars)
  | cleanupBox (id : Chars)
  | copyCode (src dst : Chars)
  | compileStep (tool : Chars)
  | runIsolate (args : List Chars)
  | readMeta (path : Chars)
  deriving DecidableEq

/-- The base `isolate --run` argument list built in `runCodeInIsolate`,
with the resource limits formatted by `fmt.Sprintf` with the `d` verb. -/
def isolateRunArgs (cpuTimeLimit wallTimeLimit memoryLimit : Int)
    (metaFilePath : Chars) : List Chars :=
  ["isolate".toList, "--run".toList, "--box-id".toList, boxId,
   "--time".toList, (toString cpuTimeLimit).toList,
   "--wall-time".toList, (toString wallTimeLimit).toList,
   "--mem".toList, (toString memoryLimit).toList,
   "--meta".toList, metaFilePath, "--".toList]

/-- The run-and-collect tail of `runCodeInIsolate`: execute the isolate
command; on failure return the result with only stderr populated; then
read and parse the metadata file and fill the usage and status fields. -/
def runPhase (env : IsolateEnv) (args : List Chars) (metaFilePath : Chars)
    (evs : List IsoEvent) : Except Chars ExecutionResult × List IsoEvent :=
  let evs := evs ++ [IsoEvent.runIsolate args]
  if env.runOk = false then
    (Except.ok { emptyResult with Stderr := env.runStderr }, evs)
  else
    let evs := evs ++ [IsoEvent.readMeta metaFilePath]
    match env.metaContent with
    | none => (Except.error "failed to read metadata file".toList, evs)
    | some content =>
      let mm := parseMetaPass content
      let meta := getMetadata content
      let evs := evs ++ [IsoEvent.readMeta metaFilePath]
      (Except.ok
        { Message := metaLookup meta "message".toList,
          Status := metaLookup meta "status".toList,
          Stdout := env.runStdout,
          Stderr := env.runStderr,
          CompileOutput := [],
          Time := mm.2,
          Memory := mm.1 }, evs)

/-- The body of `runCodeInIsolate` after the sandbox is initialized:
copy the code into the box, dispatch on the language (compiling C, C++
and Java outside the limits, short-circuiting on compiler failure), and
run. -/
def runBody (env : IsolateEnv) (language filename inputText : Chars)
    (cpuTimeLimit wallTimeLimit memoryLimit : Int) :
    Except Chars ExecutionResult × List IsoEvent :=
  let boxPath := "/var/local/lib/isolate/".toList ++ boxId ++ "/box".toList
  let codeFilePath := boxPath ++ "/".toList ++ baseName filename
  let copyEv := IsoEvent.copyCode filename codeFilePath
  if env.copyOk = false then
    (Except.error "failed to copy code to sandbox".toList, [copyEv])
  else
    let metaFilePath := "/var/local/lib/isolate/".toList ++ boxId ++ "/meta".toList
    let baseArgs := isolateRunArgs cpuTimeLimit wallTimeLimit memoryLimit metaFilePath
    if language = "c".toList then
      if env.compileOk = false then
        (Except.ok { emptyResult with
          Status := "compilation_error".toList,
          CompileOutput := env.compileStderr },
         [copyEv, IsoEvent.compileStep "gcc".toList])
      else
        runPhase env (baseArgs ++ ["./a.out".toList]) metaFilePath
          [copyEv, IsoEvent.compileStep "gcc".toList]
    else if language = "cpp".toList then
      if env.compileOk = false then
        (Except.ok { emptyResult with
          Status := "compilation_error".toList,
          CompileOutput := env.compileStderr },
         [copyEv, IsoEvent.compileStep "g++".toList])
      else
        runPhase env (baseArgs ++ ["./a.out".toList]) metaFilePath
          [copyEv, IsoEvent.compileStep "g++".toList]
    else if language = "python".toList then
      runPhase env
        (baseArgs ++ ["/usr/bin/python3".toList, baseName codeFilePath])
        metaFilePath [copyEv]
    else if language = "java".toList then
      if env.compileOk = false then
        (Except.ok { emptyResult with
          Status := "compilation_error".toList,
          CompileOutput := env.compileStderr },
         [copyEv, IsoEvent.compileStep "javac".toList])
      else
        runPhase env
          (baseArgs ++ ["/usr/bin/java".toList, "Main".toList])
          metaFilePath [copyEv, IsoEvent.compileStep "javac".toList]
    else
      (Except.error "unsupported language".toList, [copyEv])

/-- `runCodeInIsolate` from src/cmd/judge/main.go: initialize the
isolate box; once initialization succeeds, a deferred
`isolate --cleanup` runs on every return path, embedded by appending the
cleanup event to whatever trace the body produced. -/
def runCodeInIsolate (env : IsolateEnv) (language filename inputText : Chars)
    (cpuTimeLimit wallTimeLimit memoryLimit : Int) :
    Except Chars ExecutionResult × List IsoEvent :=
  if env.initOk = false then
    (Except.error "failed to initialize sandbox".toList, [IsoEvent.initBox boxId])
  else
    let body := runBody env language filename inputText
      cpuTimeLimit wallTimeLimit memoryLimit
    (body.1, IsoEvent.initBox boxId :: body.2 ++ [IsoEvent.cleanupBox boxId])

/-- Event classifier: the deferred release of the isolate box. -/
def isCleanup : IsoEvent → Bool
  | IsoEvent.cleanupBox _ => true
  | _ => false

/-- Event classifier: the sandboxed run step. -/
def isRunEvent : IsoEvent → Bool
  | IsoEvent.runIsolate _ => true
  | _ => false

/-- Event classifier: sandbox allocation. -/
def isInitEvent : IsoEvent → Bool
  | IsoEvent.initBox _ => true
  | _ => false

/-- `Submission` from the Docker judge variant. -/
structure Submission where
  Code : Chars
  Language : Chars
  Input : Chars
  Output : Chars
  TimeLimit : Int
  MemoryLimit : Int
  deriving DecidableEq

/-- Outcome of the `select` over the Docker wait channels: either the
error channel delivered a (non-nil) error — the context-deadline expiry
surfaces here as the message "context deadline exceeded" — or the status
channel fired. -/
inductive WaitOutcome where
  | errRecv (msg : Chars)
  | statusRecv
  deriving DecidableEq

/-- Environment oracle for one `executeWithDocker` call. -/
structure DockerEnv where
  clientOk : Bool
  createOk : Bool
  containerId : Chars
  startOk : Bool
  attachOk : Bool
  sendOk : Bool
  wait : WaitOutcome
  logsOk : Bool
  readOk : Bool
  logs : Chars
  execMs : Int
  removeOk : Bool
  deriving DecidableEq

/-- Backend events emitted by the container-sandbox judge. -/
inductive DockerEvent where
  | createContainer (image : Chars) (autoRemove : Bool)
  | startContainer (id : Chars)
  | attachContainer (id : Chars)
  | sendInput
  | waitContainer (timeoutSeconds : Int)
  | fetchLogs (id : Chars)
  | removeContainer (id : Chars) (force : Bool)
  deriving DecidableEq

/-- The shell command the cpp path builds by `fmt.Sprintf`, splicing the
submitted source unescaped between these two fixed halves. -/
def dockerCppShellPre : Chars := "echo \"".toList

/-- Fixed tail of the cpp shell command. -/
def dockerCppShellPost : Chars :=
  "\" > /tmp/code.cpp && g++ /tmp/code.cpp -o /tmp/a.out && /tmp/a.out".toList

/-- The full `bash -c` argument for the cpp path. -/
def dockerCppShell (code : Chars) : Chars :=
  dockerCppShellPre ++ code ++ dockerCppShellPost

/-- Image and command selection in `executeWithDocker`
(src/cmd/judge/main.go): `none` is the unsupported-language branch,
taken before any container exists. -/
def dockerImageCmd (sub : Submission) : Option (Chars × List Chars) :=
  if sub.Language = "python".toList then
    some ("python-exec".toList,
      ["python3".toList, "-c".toList, sub.Code])
  else if sub.Language = "cpp".toList then
    some ("gcc:latest".toList,
      ["bash".toList, "-c".toList, dockerCppShell sub.Code])
  else none

/-- Image and command selection in the src/unnamed/part_003 variant
(identical but for the `python` interpreter name). -/
def dockerImageCmdP3 (sub : Submission) : Option (Chars × List Chars) :=
  if sub.Language = "python".toList then
    some ("python-exec".toList,
      ["python".toList, "-c".toList, sub.Code])
  else if sub.Language = "cpp".toList then
    some ("gcc:latest".toList,
      ["bash".toList, "-c".toList, dockerCppShell sub.Code])
  else none

/-- `executeWithDocker` from src/cmd/judge/main.go: create (with
AutoRemove), start, attach, send input, wait under a context deadline of
`TimeLimit` seconds, fetch logs, sanitize and compare.  This variant
never calls ContainerRemove itself. -/
def executeWithDocker (env : DockerEnv) (sub : Submission) :
    (Chars × Int × Chars) × List DockerEvent :=
  if env.clientOk = false then
    (("Error initializing Docker client".toList, 0, []), [])
  else
    match dockerImageCmd sub with
    | none => (("Unsupported language".toList, 0, []), [])
    | some ic =>
      let evs := [DockerEvent.createContainer ic.1 true]
      if env.createOk = false then
        (("Error creating Docker container".toList, 0, []), evs)
      else
        let evs := evs ++ [DockerEvent.startContainer env.containerId]
        if env.startOk = false then
          (("Error starting Docker container".toList, 0, []), evs)
        else
          let evs := evs ++ [DockerEvent.attachContainer env.containerId]
          if env.attachOk = false then
            (("Error attaching to Docker container".toList, 0, []), evs)
          else
            let evs := evs ++ [DockerEvent.sendInput]
            if env.sendOk = false then
              (("Error sending input to container".toList, 0, []), evs)
            else
              let evs := evs ++ [DockerEvent.waitContainer sub.TimeLimit]
              match env.wait with
              | WaitOutcome.errRecv msg =>
                (("Error waiting for Docker container: ".toList ++ msg,
                  0, []), evs)
              | WaitOutcome.statusRecv =>
                let evs := evs ++ [DockerEvent.fetchLogs env.containerId]
                if env.logsOk = false then
                  (("Error fetching container logs".toList, 0, []), evs)
                else if env.readOk = false then
                  (("Error reading container logs".toList, 0, []), evs)
                else
                  let clean := sanitizeOutput env.logs
                  if clean = sub.Output then
                    (("Accepted".toList, env.execMs, clean), evs)
                  else
                    (("Wrong Answer".toList, env.execMs, clean), evs)

/-- `executeWithDocker` from src/unnamed/part_003: same pipeline, but the
io.Copy error is ignored, the container is force-removed when the wait
channel delivers an error, and again (checked) after the logs are read;
a failing final removal returns the empty triple. -/
def executeWithDockerP3 (env : DockerEnv) (sub : Submission) :
    (Chars × Int × Chars) × List DockerEvent :=
  if env.clientOk = false then
    (("Error initializing Docker client".toList, 0, []), [])
  else
    match dockerImageCmdP3 sub with
    | none => (("Unsupported language".toList, 0, []), [])
    | some ic =>
      let evs := [DockerEvent.createContainer ic.1 true]
      if env.createOk = false then
        (("Error creating Docker container".toList, 0, []), evs)
      else
        let evs := evs ++ [DockerEvent.startContainer env.containerId]
        if env.startOk = false then
          (("Error starting Docker container".toList, 0, []), evs)
        else
          let evs := evs ++ [DockerEvent.attachContainer env.containerId]
          if env.attachOk = false then
            (("Error attaching to Docker container".toList, 0, []), evs)
          else
            let evs := evs ++ [DockerEvent.sendInput]
            let evs := evs ++ [DockerEvent.waitContainer sub.TimeLimit]
            match env.wait with
            | WaitOutcome.errRecv msg =>
              let evs := evs ++ [DockerEvent.removeContainer env.containerId true]
              (("Error waiting for Docker container: ".toList ++ msg,
                0, []), evs)
            | WaitOutcome.statusRecv =>
              let evs := evs ++ [DockerEvent.fetchLogs env.containerId]
              if env.logsOk = false then
                (("Error fetching container logs".toList, 0, []), evs)
              else if env.readOk = false then
                (("Error reading container logs".toList, 0, []), evs)
              else
                let clean := sanitizeOutput env.logs
                let evs := evs ++ [DockerEvent.removeContainer env.containerId true]
                if env.removeOk = false then
                  (([], 0, []), evs)
                else if clean = sub.Output then
                  (("Accepted".toList, env.execMs, clean), evs)
                else
                  (("Wrong Answer".toList, env.execMs, clean), evs)

/-- Event classifier: explicit container removal. -/
def isRemoveEvent : DockerEvent → Bool
  | DockerEvent.removeContainer _ _ => true
  | _ => false

/-- Event classifier: container creation. -/
def isCreateEvent : DockerEvent → Bool
  | DockerEvent.createContainer _ _ => true
  | _ => false

/-- Model of the bash word scanner for the command shapes the cpp path
generates: space splits words, an unescaped double quote toggles quoting,
and the scan stops at the first unquoted redirection character, returning
the words of the `echo` command.  Faithful to bash for commands whose
quoted regions contain no dollar, backtick or backslash (the verified
statements restrict themselves to that fragment). -/
def scanWords : Chars → Bool → Chars → Bool → List Chars → Option (List Chars)
  | [], _, _, _, _ => none
  | c :: rest, inQ, cur, hasSeg, acc =>
    if inQ then
      if c = '"' then scanWords rest false cur true acc
      else scanWords rest true (cur ++ [c]) true acc
    else
      if c = '"' then scanWords rest true cur true acc
      else if c = ' ' then
        (if hasSeg then scanWords rest false [] false (acc ++ [cur])
         else scanWords rest false [] false acc)
      else if c = '>' then
        some (if hasSeg then acc ++ [cur] else acc)
      else scanWords rest false (cur ++ [c]) true acc

/-- Join words with single spaces, as `echo` does with its arguments. -/
def joinSpace : List Chars → Chars
  | [] => []
  | w :: ws =>
    match ws with
    | [] => w
    | _ :: _ => w ++ ' ' :: joinSpace ws

/-- The file content staged by the redirected `echo` of the generated
cpp command: the space-joined echo arguments plus the newline echo
appends. -/
def stagedOf (cmd : Chars) : Option Chars :=
  match scanWords cmd false [] false [] with
  | some (w :: args) =>
    if w = "echo".toList then some (joinSpace args ++ ['\n']) else none
  | _ => none

/-- Comparison following the spec's words for claim C5: byte-exact but
insensitive to trailing white space, i.e. equality after dropping
trailing white space from both sides.  This is the spec-side definition
to be compared against the code's comparison. -/
def specTrailingInsensitiveEq (a b : Chars) : Bool :=
  decide (dropTrailing a = dropTrailing b)

/-- A fully cooperative isolate environment with a well-formed metadata
file. -/
def isoEnvOk : IsolateEnv :=
  { initOk := true, copyOk := true, compileOk := true,
    compileStderr := [], runOk := true,
    runStdout := "ok".toList, runStderr := [],
    metaContent := some "time:0.002\nmax-rss:640\nstatus:OK\n".toList }

/-- An isolate environment whose compiler step fails. -/
def isoEnvCompileFail : IsolateEnv :=
  { initOk := true, copyOk := true, compileOk := false,
    compileStderr := "boom".toList, runOk := true,
    runStdout := [], runStderr := [],
    metaContent := some "time:0.002\nmax-rss:640\nstatus:OK\n".toList }

/-- An isolate environment whose metadata file exists but is malformed
(no key:value line). -/
def isoEnvGarbage : IsolateEnv :=
  { initOk := true, copyOk := true, compileOk := true,
    compileStderr := [], runOk := true,
    runStdout := "ok".toList, runStderr := [],
    metaContent := some "garbage".toList }

/-- A python submission for the Docker judge. -/
def subPy : Submission :=
  { Code := "print(1)".toList, Language := "python".toList,
    Input := [], Output := "x".toList, TimeLimit := 2, MemoryLimit := 64 }

/-- A submission in a language neither judge supports. -/
def subRuby : Submission :=
  { Code := "puts 1".toList, Language := "ruby".toList,
    Input := [], Output := [], TimeLimit := 2, MemoryLimit := 64 }

/-- A python submission whose expected output carries a trailing
newline. -/
def subExpectNl : Submission :=
  { Code := "print(1)".toList, Language := "python".toList,
    Input := [], Output := "x\n".toList, TimeLimit := 2, MemoryLimit := 64 }

/-- A Docker environment in which the container wait breaches the
context deadline: the error channel delivers the context error. -/
def denvDeadline : DockerEnv :=
  { clientOk := true, createOk := true, containerId := "cid1".toList,
    startOk := true, attachOk := true, sendOk := true,
    wait := WaitOutcome.errRecv "context deadline exceeded".toList,
    logsOk := true, readOk := true, logs := [], execMs := 0,
    removeOk := true }

/-- A fully cooperative Docker environment whose container logs read
"x". -/
def denvLogsX : DockerEnv :=
  { clientOk := true, createOk := true, containerId := "cid2".toList,
    startOk := true, attachOk := true, sendOk := true,
    wait := WaitOutcome.statusRecv,
    logsOk := true, readOk := true, logs := "x".toList, execMs := 5,
    removeOk := true }

/-- Dropping a prefix by a predicate twice is the same as dropping once. -/
theorem dropWhile_dropWhile_same (p : Char → Bool) (l : Chars) :
    (l.dropWhile p).dropWhile p = l.dropWhile p := by
  induction l with
  | nil => rfl
  | cons c t ih =>
    by_cases h : p c
    · simp [List.dropWhile, h, ih]
    · simp [List.dropWhile, h]

/-- The head of `dropWhile p l`, when it exists, fails `p`. -/
theorem dropWhile_head_false (p : Char → Bool) (l : Chars) (b : Char)
    (t : Chars) (h : l.dropWhile p = b :: t) : p b = false := by
  induction l with
  | nil => simp [List.dropWhile] at h
  | cons c s ih =>
    by_cases hc : p c
    · exact ih (by simpa [List.dropWhile, hc] using h)
    · simp [List.dropWhile, hc] at h
      simp [← h.1, hc]

/-- A string that begins with a non-space character is unchanged by a
leading `dropWhile goIsSpace`. -/
theorem dropWhile_of_head_false (b : Char) (t : Chars)
    (h : goIsSpace b = false) :
    (b :: t).dropWhile goIsSpace = b :: t := by
  simp [List.dropWhile, h]

/-- `dropTrailing l` is a prefix of `l`. -/
theorem dropTrailing_decomp (l : Chars) :
    l = dropTrailing l ++ (l.reverse.takeWhile goIsSpace).reverse := by
  unfold dropTrailing
  rw [← List.reverse_append, List.takeWhile_append_dropWhile,
    List.reverse_reverse]

/-- Dropping trailing white space twice is the same as dropping once. -/
theorem dropTrailing_dropTrailing (l : Chars) :
    dropTrailing (dropTrailing l) = dropTrailing l := by
  unfold dropTrailing
  rw [List.reverse_reverse, dropWhile_dropWhile_same]

/-- If a string is stable under a leading drop of white space, so is the
result of dropping its trailing white space. -/
theorem dropWhile_dropTrailing_stable (l : Chars)
    (h : l.dropWhile goIsSpace = l) :
    (dropTrailing l).dropWhile goIsSpace = dropTrailing l := by
  cases hc : dropTrailing l with
  | nil => rfl
  | cons b t =>
    have hl : l = b :: (t ++ (l.reverse.takeWhile goIsSpace).reverse) := by
      conv_lhs => rw [dropTrailing_decomp l]
      rw [hc]; rfl
    have hb : goIsSpace b = false :=
      dropWhile_head_false goIsSpace l b
        (t ++ (l.reverse.takeWhile goIsSpace).reverse) (h.trans hl)
    exact dropWhile_of_head_false b t hb

/-- Trimming is idempotent. -/
theorem goTrimSpace_idem (l : Chars) :
    goTrimSpace (goTrimSpace l) = goTrimSpace l := by
  unfold goTrimSpace
  rw [dropWhile_dropTrailing_stable (l.dropWhile goIsSpace)
    (dropWhile_dropWhile_same goIsSpace l), dropTrailing_dropTrailing]

/-- Every character surviving the trim was in the original string. -/
theorem mem_of_mem_goTrimSpace (c : Char) (l : Chars)
    (h : c ∈ goTrimSpace l) : c ∈ l := by
  unfold goTrimSpace dropTrailing at h
  rw [List.mem_reverse] at h
  have h1 := ((l.dropWhile goIsSpace).reverse.dropWhile_sublist goIsSpace).mem h
  rw [List.mem_reverse] at h1
  exact (l.dropWhile_sublist goIsSpace).mem h1

/-- C9: the output-sanitization function is idempotent — sanitizing
already-sanitized output returns it unchanged. -/
theorem C9_sanitize_idempotent (s : Chars) :
    sanitizeOutput (sanitizeOutput s) = sanitizeOutput s := by
  unfold sanitizeOutput
  have hfilter : (goTrimSpace (s.filter keepPrintable)).filter keepPrintable
      = goTrimSpace (s.filter keepPrintable) := by
    apply List.filter_eq_self.mpr
    intro a ha
    exact List.of_mem_filter (mem_of_mem_goTrimSpace a _ ha)
  rw [hfilter, goTrimSpace_idem]

/-- Helper: the body of the isolate judge never emits a cleanup event;
the only release comes from the deferred call in the wrapper. -/
theorem runBody_no_cleanup (env : IsolateEnv)
    (language filename inputText : Chars) (c w m : Int) :
    List.countP isCleanup (runBody env language filename inputText c w m).2
      = 0 := by
  unfold runBody runPhase
  repeat' split
  all_goals simp [isCleanup]

/-- Helper: the main.go Docker judge never emits an explicit container
removal on any path. -/
theorem executeWithDocker_no_remove (env : DockerEnv) (sub : Submission) :
    List.countP isRemoveEvent (executeWithDocker env sub).2 = 0 := by
  unfold executeWithDocker
  repeat' split
  all_goals simp [isRemoveEvent, apply_ite, ite_self]

/-- C1 (amended): once `isolate --init` succeeds the process-sandbox
judge emits exactly one `isolate --cleanup`, on every exit path
(compile failure, run failure, metadata failure, success); the main.go
container judge, by contrast, never invokes an explicit container
removal on any path — it relies on the daemon's AutoRemove, which has
not fired at return time on a wait-deadline breach. -/
theorem C1_release_amended (env : IsolateEnv)
    (language filename inputText : Chars) (c w m : Int)
    (denv : DockerEnv) (sub : Submission) (h : env.initOk = true) :
    List.countP isCleanup
      (runCodeInIsolate env language filename inputText c w m).2 = 1 ∧
    List.countP isRemoveEvent (executeWithDocker denv sub).2 = 0 := by
  refine ⟨?_, executeWithDocker_no_remove denv sub⟩
  unfold runCodeInIsolate
  simp [h, List.countP_append, List.countP_cons, runBody_no_cleanup, isCleanup]

/-- C1 witness: the amended statement at a concrete environment. -/
theorem C1_witness :
    List.countP isCleanup
      (runCodeInIsolate isoEnvOk "python".toList "a.py".toList [] 1 2 3).2
        = 1 ∧
    List.countP isRemoveEvent (executeWithDocker denvDeadline subPy).2 = 0 :=
  C1_release_amended isoEnvOk "python".toList "a.py".toList [] 1 2 3
    denvDeadline subPy rfl

/-- C1 counterexample: in the main.go container judge a container is
created (allocation succeeds), the wait breaches the context deadline,
and the function returns the generic wait error with no removal invoked
— release is not observed before the judging function returns. -/
theorem C1_counterexample :
    List.countP isCreateEvent (executeWithDocker denvDeadline subPy).2 = 1 ∧
    List.countP isRemoveEvent (executeWithDocker denvDeadline subPy).2 = 0 ∧
    (executeWithDocker denvDeadline subPy).1.1 =
      "Error waiting for Docker container: context deadline exceeded".toList := by
  decide

/-- C8 (amended): every invocation of the process-sandbox judge attempts
allocation under the pinned box id "0"; identifiers are not generated
per invocation. -/
theorem C8_fixed_box_id (env : IsolateEnv)
    (language filename inputText : Chars) (c w m : Int) :
    (runCodeInIsolate env language filename inputText c w m).2.head? =
      some (IsoEvent.initBox "0".toList) := by
  unfold runCodeInIsolate
  by_cases h : env.initOk = false <;> simp [h, boxId]

/-- C8 counterexample: two different submissions (different language,
file and limits) are both allocated under the same box id "0",
contradicting the uniquely-generated-identifier claim. -/
theorem C8_counterexample :
    (runCodeInIsolate isoEnvOk "python".toList "a.py".toList [] 1 2 3).2.head?
      = (runCodeInIsolate isoEnvOk "cpp".toList "b.cpp".toList [] 4 5 6).2.head?
    ∧ (runCodeInIsolate isoEnvOk "python".toList "a.py".toList [] 1 2 3).2.head?
      = some (IsoEvent.initBox "0".toList) := by
  decide

/-- C6: for a compiled language whose build step exits non-zero, the
result is the compilation_error verdict carrying the captured compiler
stderr as compile output, with empty stdout (the result record is the
zero record except for those two fields), and no isolate run is ever
invoked. -/
theorem C6_compile_error (env : IsolateEnv)
    (language filename inputText : Chars) (c w m : Int)
    (hi : env.initOk = true) (hcp : env.copyOk = true)
    (hco : env.compileOk = false)
    (hL : language = "c".toList ∨ language = "cpp".toList ∨
          language = "java".toList) :
    (runCodeInIsolate env language filename inputText c w m).1 =
      Except.ok { emptyResult with
        Status := "compilation_error".toList,
        CompileOutput := env.compileStderr } ∧
    List.countP isRunEvent
      (runCodeInIsolate env language filename inputText c w m).2 = 0 := by
  unfold runCodeInIsolate runBody
  rcases hL with h | h | h <;>
    simp [hi, hcp, hco, h, isRunEvent, List.countP_cons, List.countP_append]

/-- C6 witness: the compile-failure guarantee at a concrete
environment. -/
theorem C6_witness :
    (runCodeInIsolate isoEnvCompileFail "cpp".toList "b.cpp".toList [] 1 2 3).1
      = Except.ok { emptyResult with
          Status := "compilation_error".toList,
          CompileOutput := isoEnvCompileFail.compileStderr } ∧
    List.countP isRunEvent
      (runCodeInIsolate isoEnvCompileFail "cpp".toList "b.cpp".toList [] 1 2 3).2
        = 0 :=
  C6_compile_error isoEnvCompileFail "cpp".toList "b.cpp".toList [] 1 2 3
    rfl rfl rfl (Or.inr (Or.inl rfl))

/-- C2 (amended): no limit validation exists.  Whenever sandbox
initialization succeeds the box is allocated regardless of the limit
values (non-positive or inverted limits included), and the limits are
passed verbatim, formatted with the `d` verb, into the `isolate --run`
argument list. -/
theorem C2_no_validation_amended (env : IsolateEnv)
    (language filename inputText : Chars) (c w m : Int)
    (hi : env.initOk = true) :
    IsoEvent.initBox boxId ∈
      (runCodeInIsolate env language filename inputText c w m).2 ∧
    (env.copyOk = true → language = "python".toList →
      IsoEvent.runIsolate
        (isolateRunArgs c w m
            ("/var/local/lib/isolate/".toList ++ boxId ++ "/meta".toList) ++
          ["/usr/bin/python3".toList,
           baseName ("/var/local/lib/isolate/".toList ++ boxId ++
             "/box".toList ++ "/".toList ++ baseName filename)]) ∈
        (runCodeInIsolate env language filename inputText c w m).2) := by
  constructor
  · unfold runCodeInIsolate
    simp [hi]
  · intro hcp hl
    subst hl
    have d1 : "python".toList ≠ "c".toList := by decide
    have d2 : "python".toList ≠ "cpp".toList := by decide
    unfold runCodeInIsolate runBody runPhase
    simp [hi, hcp, d1, d2]
    repeat' split
    all_goals simp

/-- C2 witness: with invalid limits (cpu -1, wall -2, memory 0) the
sandbox is still allocated and the limits flow verbatim into the run
command. -/
theorem C2_witness :
    IsoEvent.initBox boxId ∈
      (runCodeInIsolate isoEnvOk "python".toList "a.py".toList []
        (-1) (-2) 0).2 ∧
    IsoEvent.runIsolate
      (isolateRunArgs (-1) (-2) 0
          ("/var/local/lib/isolate/".toList ++ boxId ++ "/meta".toList) ++
        ["/usr/bin/python3".toList,
         baseName ("/var/local/lib/isolate/".toList ++ boxId ++
           "/box".toList ++ "/".toList ++ baseName "a.py".toList)]) ∈
      (runCodeInIsolate isoEnvOk "python".toList "a.py".toList []
        (-1) (-2) 0).2 :=
  ⟨(C2_no_validation_amended isoEnvOk "python".toList "a.py".toList []
      (-1) (-2) 0 rfl).1,
   (C2_no_validation_amended isoEnvOk "python".toList "a.py".toList []
      (-1) (-2) 0 rfl).2 rfl rfl⟩

/-- C2 counterexample: with non-positive and inverted limits the judge
does not fail with any InvalidLimits error and does allocate the box —
the run proceeds and returns a normal result. -/
theorem C2_counterexample :
    IsoEvent.initBox boxId ∈
      (runCodeInIsolate isoEnvOk "python".toList "a.py".toList []
        (-1) (-2) 0).2 ∧
    (runCodeInIsolate isoEnvOk "python".toList "a.py".toList []
        (-1) (-2) 0).1 =
      Except.ok { Message := [],
                  Status := "OK".toList,
                  Stdout := "ok".toList,
                  Stderr := [],
                  CompileOutput := [],
                  Time := "0.002".toList,
                  Memory := 640 } := by
  decide

/-- C3 (amended): the container judge rejects an unsupported language
before any container is created, but the process-sandbox judge
initializes the box (and copies the code) before detecting the
unsupported language; the box is then released by the deferred
cleanup. -/
theorem C3_unsupported_amended (denv : DockerEnv) (sub : Submission)
    (env : IsolateEnv) (language filename inputText : Chars) (c w m : Int)
    (hd1 : sub.Language ≠ "python".toList)
    (hd2 : sub.Language ≠ "cpp".toList)
    (h1 : language ≠ "c".toList) (h2 : language ≠ "cpp".toList)
    (h3 : language ≠ "python".toList) (h4 : language ≠ "java".toList)
    (hi : env.initOk = true) (hcp : env.copyOk = true) :
    List.countP isCreateEvent (executeWithDocker denv sub).2 = 0 ∧
    (denv.clientOk = true →
      (executeWithDocker denv sub).1.1 = "Unsupported language".toList) ∧
    (runCodeInIsolate env language filename inputText c w m).1 =
      Except.error "unsupported language".toList ∧
    IsoEvent.initBox boxId ∈
      (runCodeInIsolate env language filename inputText c w m).2 ∧
    IsoEvent.cleanupBox boxId ∈
      (runCodeInIsolate env language filename inputText c w m).2 := by
  simp at hd1 hd2 h1 h2 h3 h4
  refine ⟨?_, ?_, ?_, ?_, ?_⟩
  · unfold executeWithDocker dockerImageCmd
    by_cases hc : denv.clientOk = false <;>
      simp [hc, hd1, hd2, isCreateEvent]
  · intro hcl
    unfold executeWithDocker dockerImageCmd
    simp [hcl, hd1, hd2]
  · unfold runCodeInIsolate runBody
    simp [hi, hcp, h1, h2, h3, h4]
  · unfold runCodeInIsolate
    simp [hi]
  · unfold runCodeInIsolate runBody
    simp [hi, hcp, h1, h2, h3, h4]

/-- C3 witness: the amended statement at a concrete unsupported
submission. -/
theorem C3_witness :
    List.countP isCreateEvent (executeWithDocker denvDeadline subRuby).2 = 0 ∧
    (executeWithDocker denvDeadline subRuby).1.1 =
      "Unsupported language".toList ∧
    (runCodeInIsolate isoEnvOk "ruby".toList "a.rb".toList [] 1 2 3).1 =
      Except.error "unsupported language".toList :=
  ⟨(C3_unsupported_amended denvDeadline subRuby isoEnvOk "ruby".toList
      "a.rb".toList [] 1 2 3 (by decide) (by decide) (by decide) (by decide)
      (by decide) (by decide) rfl rfl).1,
   (C3_unsupported_amended denvDeadline subRuby isoEnvOk "ruby".toList
      "a.rb".toList [] 1 2 3 (by decide) (by decide) (by decide) (by decide)
      (by decide) (by decide) rfl rfl).2.1 rfl,
   (C3_unsupported_amended denvDeadline subRuby isoEnvOk "ruby".toList
      "a.rb".toList [] 1 2 3 (by decide) (by decide) (by decide) (by decide)
      (by decide) (by decide) rfl rfl).2.2.1⟩

/-- C3 counterexample: for an unsupported language the process-sandbox
judge allocates the box first — the failure is not produced before any
resource is allocated. -/
theorem C3_counterexample :
    IsoEvent.initBox boxId ∈
      (runCodeInIsolate isoEnvOk "ruby".toList "a.rb".toList [] 1 2 3).2 ∧
    (runCodeInIsolate isoEnvOk "ruby".toList "a.rb".toList [] 1 2 3).1 =
      Except.error "unsupported language".toList := by
  decide

/-- Helper: `splitOnce` finds nothing when the separator is absent. -/
theorem splitOnce_eq_none (c : Char) (l : Chars) (h : c ∉ l) :
    splitOnce c l = none := by
  induction l with
  | nil => rfl
  | cons x xs ih =>
    have hx : ¬ x = c := by
      intro hxc
      exact h (by rw [← hxc]; exact List.mem_cons_self x xs)
    have hxs : c ∉ xs := fun hm => h (List.mem_cons_of_mem x hm)
    simp [splitOnce, hx, ih hxs]

/-- Helper: dropping a carriage return introduces no character. -/
theorem mem_dropCR (a : Char) (l : Chars) (h : a ∈ dropCR l) : a ∈ l := by
  unfold dropCR at h
  split at h
  · exact (List.dropLast_sublist l).mem h
  · exact h

/-- Helper: colon-free content stays colon-free through the scanner's
line splitting. -/
theorem goScanLines_colon_free (content : Chars)
    (h : ∀ line ∈ content.splitOn '\n', ':' ∉ line) :
    ∀ line ∈ goScanLines content, splitOnce ':' line = none := by
  intro line hm
  unfold goScanLines at hm
  by_cases hc : content = []
  · rw [if_pos hc] at hm
    simp at hm
  · rw [if_neg hc] at hm
    simp only [List.mem_map] at hm
    obtain ⟨l0, hl0, rfl⟩ := hm
    have hl0m : l0 ∈ content.splitOn '\n' := by
      by_cases hnl : content.getLast? = some '\n'
      · rw [if_pos hnl] at hl0
        exact (List.dropLast_sublist _).mem hl0
      · rw [if_neg hnl] at hl0
        exact hl0
    exact splitOnce_eq_none ':' (dropCR l0)
      (fun hmem => h l0 hl0m (mem_dropCR ':' l0 hmem))

/-- Helper: a fold that only acts on `key:value` lines is the identity
on colon-free input. -/
theorem foldl_skip_acc {α : Type} (g : α → Chars × Chars → α)
    (lines : List Chars) (h : ∀ line ∈ lines, splitOnce ':' line = none)
    (a : α) :
    lines.foldl
      (fun acc line =>
        match splitOnce ':' line with
        | none => acc
        | some kv => g acc kv) a = a := by
  induction lines generalizing a with
  | nil => rfl
  | cons l ls ih =>
    have h0 : splitOnce ':' l = none := h l (List.mem_cons_self l ls)
    rw [List.foldl_cons]
    have hstep : (match splitOnce ':' l with
                  | none => a
                  | some kv => g a kv) = a := by rw [h0]
    rw [hstep]
    exact ih (fun line hm => h line (List.mem_cons_of_mem l hm)) a

/-- Helper: the first metadata pass returns the zero report on
colon-free content. -/
theorem parseMetaPass_skip (content : Chars)
    (h : ∀ line ∈ content.splitOn '\n', splitOnce ':' line = none) :
    parseMetaPass content = (0, []) := by
  unfold parseMetaPass
  exact foldl_skip_acc
    (fun acc kv =>
      if kv.1 = "max-rss".toList then (atoiOrZero kv.2, acc.2)
      else if kv.1 = "time".toList then (acc.1, kv.2)
      else acc)
    (content.splitOn '\n') h (0, [])

/-- Helper: `getMetadata` is empty on colon-free content. -/
theorem getMetadata_skip (content : Chars)
    (h : ∀ line ∈ content.splitOn '\n', ':' ∉ line) :
    getMetadata content = [] := by
  unfold getMetadata
  exact foldl_skip_acc
    (fun acc kv => acc ++ [(goTrimSpace kv.1, goTrimSpace kv.2)])
    (goScanLines content) (goScanLines_colon_free content h) []

/-- C7 (amended): after a successful run, a missing metadata file does
yield an error, but a malformed metadata file (no key:value line) is
silently tolerated: the judge returns a normal result whose usage
fields are the zero values — indistinguishable from negligible resource
use. -/
theorem C7_metadata_amended (env : IsolateEnv)
    (language filename inputText : Chars) (c w m : Int)
    (hi : env.initOk = true) (hcp : env.copyOk = true)
    (hco : env.compileOk = true) (hr : env.runOk = true)
    (hL : language = "c".toList ∨ language = "cpp".toList ∨
          language = "python".toList ∨ language = "java".toList) :
    (env.metaContent = none →
      (runCodeInIsolate env language filename inputText c w m).1 =
        Except.error "failed to read metadata file".toList) ∧
    (∀ content, env.metaContent = some content →
      (∀ line ∈ content.splitOn '\n', ':' ∉ line) →
      (runCodeInIsolate env language filename inputText c w m).1 =
        Except.ok { Message := [],
                    Status := [],
                    Stdout := env.runStdout,
                    Stderr := env.runStderr,
                    CompileOutput := [],
                    Time := [],
                    Memory := 0 }) := by
  constructor
  · intro hm
    rcases hL with hx | hx | hx | hx <;> subst hx <;>
      unfold runCodeInIsolate runBody runPhase <;>
      simp [hi, hcp, hco, hr, hm]
  · intro content hm hfree
    have hparse : parseMetaPass content = (0, []) :=
      parseMetaPass_skip content
        (fun line hl => splitOnce_eq_none ':' line (hfree line hl))
    have hmeta : getMetadata content = [] := getMetadata_skip content hfree
    rcases hL with hx | hx | hx | hx <;> subst hx <;>
      unfold runCodeInIsolate runBody runPhase <;>
      simp [hi, hcp, hco, hr, hm, hparse, hmeta, metaLookup]

/-- C7 witness: the malformed-metadata branch of the amended statement
at a concrete environment. -/
theorem C7_witness :
    (runCodeInIsolate isoEnvGarbage "python".toList "a.py".toList [] 1 2 3).1 =
      Except.ok { Message := [],
                  Status := [],
                  Stdout := "ok".toList,
                  Stderr := [],
                  CompileOutput := [],
                  Time := [],
                  Memory := 0 } :=
  (C7_metadata_amended isoEnvGarbage "python".toList "a.py".toList [] 1 2 3
    rfl rfl rfl rfl (Or.inr (Or.inr (Or.inl rfl)))).2
    "garbage".toList rfl (by decide)

/-- C7 counterexample: with an existing but malformed metadata file the
judge returns a normal zero-usage result and no error — precisely the
silent zero-usage report the claim rules out. -/
theorem C7_counterexample :
    (runCodeInIsolate isoEnvGarbage "python".toList "a.py".toList [] 1 2 3).1 =
      Except.ok { Message := [],
                  Status := [],
                  Stdout := "ok".toList,
                  Stderr := [],
                  CompileOutput := [],
                  Time := [],
                  Memory := 0 } ∧
    (runCodeInIsolate isoEnvGarbage "python".toList "a.py".toList [] 1 2 3).1 ≠
      Except.error "failed to read metadata file".toList := by
  decide

/-- C4 (amended): the container wait is bounded by a context deadline of
the submission's TimeLimit (the wait event carries that timeout).  When
the wait channel delivers an error — the deadline expiry included — the
part_003 variant force-removes the container but returns the generic
wait-error message, not a TimeLimitExceeded cause; the main.go variant
performs no removal at all. -/
theorem C4_deadline_amended (env : DockerEnv) (sub : Submission)
    (msg : Chars) (hc : env.clientOk = true)
    (hL : sub.Language = "python".toList)
    (h1 : env.createOk = true) (h2 : env.startOk = true)
    (h3 : env.attachOk = true)
    (hw : env.wait = WaitOutcome.errRecv msg) :
    DockerEvent.waitContainer sub.TimeLimit ∈
      (executeWithDockerP3 env sub).2 ∧
    (executeWithDockerP3 env sub).1.1 =
      "Error waiting for Docker container: ".toList ++ msg ∧
    DockerEvent.removeContainer env.containerId true ∈
      (executeWithDockerP3 env sub).2 ∧
    List.countP isRemoveEvent (executeWithDocker env sub).2 = 0 := by
  refine ⟨?_, ?_, ?_, executeWithDocker_no_remove env sub⟩ <;>
    unfold executeWithDockerP3 dockerImageCmdP3 <;>
    simp [hc, hL, h1, h2, h3, hw]

/-- C4 witness: the amended statement at a concrete deadline-breach
environment. -/
theorem C4_witness :
    DockerEvent.waitContainer subPy.TimeLimit ∈
      (executeWithDockerP3 denvDeadline subPy).2 ∧
    (executeWithDockerP3 denvDeadline subPy).1.1 =
      "Error waiting for Docker container: ".toList ++
        "context deadline exceeded".toList ∧
    DockerEvent.removeContainer denvDeadline.containerId true ∈
      (executeWithDockerP3 denvDeadline subPy).2 ∧
    List.countP isRemoveEvent (executeWithDocker denvDeadline subPy).2 = 0 :=
  C4_deadline_amended denvDeadline subPy "context deadline exceeded".toList
    rfl rfl rfl rfl rfl rfl

/-- C4 counterexample: on a deadline breach the main.go container judge
returns the generic wait-error string — no TimeLimitExceeded
termination cause appears in the result — and performs no container
removal. -/
theorem C4_counterexample :
    (executeWithDocker denvDeadline subPy).1.1 =
      "Error waiting for Docker container: context deadline exceeded".toList ∧
    (executeWithDocker denvDeadline subPy).1.1 ≠
      "TimeLimitExceeded".toList ∧
    List.countP isRemoveEvent (executeWithDocker denvDeadline subPy).2 = 0 := by
  decide

/-- C5 (amended): once execution completes normally, the verdict is
Accepted exactly when `sanitizeOutput` of the container logs is
byte-equal to the raw expected output, and Wrong Answer otherwise.
Leading as well as trailing white space and non-printables are stripped
from the logs only; the expected output is not normalized, so trailing
white space in it is significant. -/
theorem C5_verdict_amended (env : DockerEnv) (sub : Submission)
    (hc : env.clientOk = true) (hL : sub.Language = "python".toList)
    (h1 : env.createOk = true) (h2 : env.startOk = true)
    (h3 : env.attachOk = true) (h4 : env.sendOk = true)
    (h5 : env.wait = WaitOutcome.statusRecv)
    (h6 : env.logsOk = true) (h7 : env.readOk = true) :
    ((executeWithDocker env sub).1.1 = "Accepted".toList ↔
      sanitizeOutput env.logs = sub.Output) ∧
    ((executeWithDocker env sub).1.1 = "Wrong Answer".toList ↔
      ¬ sanitizeOutput env.logs = sub.Output) := by
  unfold executeWithDocker dockerImageCmd
  simp [hc, hL, h1, h2, h3, h4, h5, h6, h7]
  by_cases heq : sanitizeOutput env.logs = sub.Output <;> simp [heq]

/-- C5 witness: a run whose sanitized logs equal the expected output is
Accepted. -/
theorem C5_witness :
    (executeWithDocker denvLogsX subPy).1.1 = "Accepted".toList :=
  (C5_verdict_amended denvLogsX subPy rfl rfl rfl rfl rfl rfl rfl rfl rfl).1.mpr
    (by decide)

/-- C5 counterexample: under the spec's trailing-whitespace-insensitive
comparison the sanitized logs "x" match the expected output with a
trailing newline, yet the code returns Wrong Answer, because the
comparison is plain equality against the raw expected output. -/
theorem C5_counterexample :
    specTrailingInsensitiveEq (sanitizeOutput denvLogsX.logs)
      subExpectNl.Output = true ∧
    (executeWithDocker denvLogsX subExpectNl).1.1 =
      "Wrong Answer".toList := by
  decide

/-- Helper: inside a double-quoted region the scanner accumulates a
quote-free block verbatim into the current word. -/
theorem scanWords_quoted_append (code : Chars)
    (h : ∀ ch ∈ code, ch ≠ '"') (rest cur : Chars) (acc : List Chars) :
    scanWords (code ++ rest) true cur true acc =
      scanWords rest true (cur ++ code) true acc := by
  induction code generalizing cur with
  | nil => simp
  | cons c cs ih =>
    have hc : ¬ c = '"' := h c (List.mem_cons_self c cs)
    have hcs : ∀ ch ∈ cs, ch ≠ '"' :=
      fun ch hm => h ch (List.mem_cons_of_mem c hm)
    simp only [List.cons_append]
    rw [scanWords]
    simp only [if_pos rfl, if_neg hc, ite_true, ite_false]
    rw [ih hcs (cur ++ [c])]
    simp

/-- C10: the cpp path of the container judge splices the submitted
source unescaped into a double-quoted `echo` shell command.  For source
containing none of the shell-interpreted characters (double quote,
backslash, dollar, backtick) the staged file is the source plus the
newline echo appends; but for the source `say "hi"`, which contains
double quotes, the staged file is `say hi` plus a newline — the
compiled and executed program differs from the submitted source. -/
theorem C10_shell_staging (code : Chars)
    (h : ∀ ch ∈ code, ch ≠ '"' ∧ ch ≠ '\\' ∧ ch ≠ '$' ∧ ch.toNat ≠ 96) :
    stagedOf (dockerCppShell code) = some (code ++ ['\n']) ∧
    stagedOf (dockerCppShell "say \"hi\"".toList) = some "say hi\n".toList ∧
    stagedOf (dockerCppShell "say \"hi\"".toList) ≠
      some ("say \"hi\"".toList ++ ['\n']) ∧
    stagedOf (dockerCppShell "say \"hi\"".toList) ≠
      some "say \"hi\"".toList ∧
    '"' ∈ "say \"hi\"".toList := by
  refine ⟨?_, by decide, by decide, by decide, by decide⟩
  have hq : ∀ ch ∈ code, ch ≠ '"' := fun ch hm => (h ch hm).1
  have h1 : scanWords (dockerCppShell code) false [] false [] =
      scanWords (code ++ ('"' :: ' ' :: '>' ::
          " /tmp/code.cpp && g++ /tmp/code.cpp -o /tmp/a.out && /tmp/a.out".toList))
        true [] true [['e', 'c', 'h', 'o']] := rfl
  have h2 : scanWords (('"' : Char) :: ' ' :: '>' ::
          " /tmp/code.cpp && g++ /tmp/code.cpp -o /tmp/a.out && /tmp/a.out".toList)
        true code true [['e', 'c', 'h', 'o']] =
      some [['e', 'c', 'h', 'o'], code] := rfl
  unfold stagedOf
  rw [h1, scanWords_quoted_append code hq, List.nil_append, h2]
  simp [joinSpace]

/-- C10 witness: faithful staging of a quote-free source. -/
theorem C10_witness :
    stagedOf (dockerCppShell "int x;".toList) =
      some ("int x;".toList ++ ['\n']) :=
  (C10_shell_staging "int x;".toList (by decide)).1
